import Mathlib

/-!
Shallow embedding of the RMAnalyzer transaction attribution and
summarization engine, translated from the repository sources
src/main.py (namespace MainV1) and src/lambda_function/src/main_v2.py
(namespace MainV2).

Modelling conventions:
* Python float amounts are modelled as exact rationals; the repository
  only ever adds and subtracts currency amounts, which the specification
  treats as decimal values.  Non-finite float literals (inf, nan) are
  outside the model.
* Python exceptions are modelled with the Except monad and the Exc kind
  below; an exception caught by the source is folded back into a normal
  return value exactly where the source catches it.
* csv.DictReader is modelled on ASCII text: the first line of the input
  provides the header fields, each later non-blank line is zipped with
  the header, rows shorter than the header are padded with missing
  (Python None) values and surplus values are dropped (they are keyed
  by None in Python and never consulted).  Field quoting follows the
  default dialect for fields that are fully quoted or unquoted.
* Logging is observability only and is not modelled.
-/

/-- Kinds of Python exceptions the embedded code can raise or catch. -/
inductive Exc where
  | valueError
  | keyError
  | typeError
  | runtimeError
deriving DecidableEq, Repr

/-- A Python datetime.date: what matters to the code is the (year,
month, day) triple and its lexicographic order. -/
structure PyDate where
  year : Nat
  month : Nat
  day : Nat
deriving DecidableEq, Repr

/-- Python date comparison is lexicographic on (year, month, day). -/
def PyDate.lt (a b : PyDate) : Bool :=
  if a.year ≠ b.year then decide (a.year < b.year)
  else if a.month ≠ b.month then decide (a.month < b.month)
  else decide (a.day < b.day)

/-- One step of Python min over an iterable: keep the accumulator
unless the next element is strictly smaller. -/
def PyDate.minStep (acc x : PyDate) : PyDate := if PyDate.lt x acc then x else acc

/-- One step of Python max over an iterable. -/
def PyDate.maxStep (acc x : PyDate) : PyDate := if PyDate.lt acc x then x else acc

/-- A csv.DictReader row: header field names paired with the cell
value; a value of none models Python None (cell missing because the
data row was shorter than the header). -/
abbrev Row : Type := List (String × Option String)

/-- Python row[key]: some value when the key is present (the value may
itself be the Python None), none when the lookup raises KeyError. -/
def rowGet (r : Row) (k : String) : Option (Option String) :=
  match r with
  | [] => none
  | (k1, v) :: rest => if k1 = k then some v else rowGet rest k

/-- Whitespace recognized when int() and float() strip their argument. -/
def isPySpace (c : Char) : Bool :=
  c = ' ' ∨ c = '\t' ∨ c = '\n' ∨ c = '\r' ∨ c = '\x0b' ∨ c = '\x0c'

/-- Numeric value of a nonempty all-digit character list. -/
def digitsVal (l : List Char) : Option Nat :=
  if l ≠ [] ∧ l.all Char.isDigit then
    some (l.foldl (fun n c => 10 * n + (c.toNat - 48)) 0)
  else none

/-- Digit groups in Python numeric literals may contain single
underscores between digits (PEP 515); this strips them, failing on a
leading, trailing or doubled underscore.  The caller checks that the
first character is a digit. -/
def stripUnderscores : List Char → Option (List Char)
  | [] => some []
  | '_' :: c :: rs =>
    if c.isDigit then (stripUnderscores rs).map (fun l => c :: l) else none
  | c :: rs =>
    if c.isDigit then (stripUnderscores rs).map (fun l => c :: l) else none

/-- A digit group with optional underscores, required nonempty and
starting with a digit; returns its numeric value. -/
def digitGroupVal (l : List Char) : Option Nat :=
  match l with
  | [] => none
  | c :: _ =>
    if c.isDigit then
      match stripUnderscores l with
      | some ds => digitsVal ds
      | none => none
    else none

/-- Splits a character list at every occurrence of the separator. -/
def splitOnChar (sep : Char) (cur : List Char) : List Char → List (List Char)
  | [] => [cur.reverse]
  | c :: rs =>
    if c = sep then cur.reverse :: splitOnChar sep [] rs
    else splitOnChar sep (c :: cur) rs

/-- Drops leading and trailing Python whitespace. -/
def pyStrip (l : List Char) : List Char :=
  ((l.dropWhile isPySpace).reverse.dropWhile isPySpace).reverse

/-- Python int(string): strip whitespace, optional sign, then a digit
group.  Unicode digits are outside the model. -/
def parseInt (s : String) : Option Int :=
  let l := pyStrip s.data
  match l with
  | '+' :: rest => (digitGroupVal rest).map (fun n => (n : Int))
  | '-' :: rest => (digitGroupVal rest).map (fun n => -(n : Int))
  | rest => (digitGroupVal rest).map (fun n => (n : Int))

/-- A possibly empty digit group (the integer or fraction part of a
float literal); returns its value and digit count. -/
def fracGroup (l : List Char) : Option (Nat × Nat) :=
  match l with
  | [] => some (0, 0)
  | _ =>
    match digitGroupVal l with
    | some n => some (n, ((stripUnderscores l).getD []).length)
    | none => none

/-- The mantissa of a float literal: digits with at most one point,
at least one digit overall. -/
def parseMantissa (l : List Char) : Option ℚ :=
  match splitOnChar '.' [] l with
  | [ip] =>
    match digitGroupVal ip with
    | some n => some (n : ℚ)
    | none => none
  | [ip, fp] =>
    if ip = [] ∧ fp = [] then none
    else
      match fracGroup ip, fracGroup fp with
      | some (i, _), some (f, fl) => some ((i : ℚ) + (f : ℚ) / (10 ^ fl : ℚ))
      | _, _ => none
  | _ => none

/-- The exponent of a float literal: optional sign and a digit group. -/
def parseExponent (l : List Char) : Option Int :=
  match l with
  | '+' :: rest => (digitGroupVal rest).map (fun n => (n : Int))
  | '-' :: rest => (digitGroupVal rest).map (fun n => -(n : Int))
  | rest => (digitGroupVal rest).map (fun n => (n : Int))

/-- Scales a rational by a power of ten. -/
def scalePow10 (q : ℚ) (e : Int) : ℚ :=
  if 0 ≤ e then q * (10 : ℚ) ^ e.toNat else q / (10 : ℚ) ^ (-e).toNat

/-- Splits a float literal body at the first e or E. -/
def splitExponent (cur : List Char) : List Char → (List Char × Option (List Char))
  | [] => (cur.reverse, none)
  | c :: rs =>
    if c = 'e' ∨ c = 'E' then (cur.reverse, some rs)
    else splitExponent (c :: cur) rs

/-- Python float(string) restricted to finite decimal literals: strip
whitespace, optional sign, mantissa, optional exponent.  The inf and
nan spellings are outside the rational model. -/
def parseFloat (s : String) : Option ℚ :=
  let signed := pyStrip s.data
  let core := fun (l : List Char) =>
    match splitExponent [] l with
    | (m, none) => parseMantissa m
    | (m, some e) =>
      match parseMantissa m, parseExponent e with
      | some q, some ex => some (scalePow10 q ex)
      | _, _ => none
  match signed with
  | '+' :: rest => core rest
  | '-' :: rest => (core rest).map (fun q => -q)
  | rest => core rest

/-- True in leap years, per the Gregorian rule used by datetime. -/
def isLeapYear (y : Nat) : Bool :=
  y % 4 = 0 ∧ (y % 100 ≠ 0 ∨ y % 400 = 0)

/-- Number of days of a month, as datetime.date validates it. -/
def daysInMonth (y m : Nat) : Nat :=
  if m = 2 then (if isLeapYear y then 29 else 28)
  else if m = 4 ∨ m = 6 ∨ m = 9 ∨ m = 11 then 30
  else 31

/-- datetime.strptime(s, "%Y-%m-%d").date(): a four digit year, one or
two digit month 1-12, one or two digit day, nothing left over, and the
resulting date must be valid (day within the month, year at least 1). -/
def parseDate (s : String) : Option PyDate :=
  match splitOnChar '-' [] s.data with
  | [ys, ms, ds] =>
    if ys.length = 4 ∧ ms.length ≥ 1 ∧ ms.length ≤ 2 ∧ ds.length ≥ 1 ∧ ds.length ≤ 2 then
      match digitsVal ys, digitsVal ms, digitsVal ds with
      | some y, some m, some d =>
        if 1 ≤ y ∧ 1 ≤ m ∧ m ≤ 12 ∧ 1 ≤ d ∧ d ≤ 31 ∧ d ≤ daysInMonth y m then
          some ⟨y, m, d⟩
        else none
      | _, _, _ => none
    else none
  | _ => none

/-- str.splitlines on ASCII text: split at newline, carriage return or
their pair, producing no trailing empty line. -/
def splitLinesAux (cur : List Char) : List Char → List (List Char)
  | [] => if cur = [] then [] else [cur.reverse]
  | '\r' :: '\n' :: rs => cur.reverse :: splitLinesAux [] rs
  | '\r' :: rs => cur.reverse :: splitLinesAux [] rs
  | '\n' :: rs => cur.reverse :: splitLinesAux [] rs
  | c :: rs => splitLinesAux (c :: cur) rs

/-- All lines of the input text. -/
def splitLines (cs : List Char) : List (List Char) := splitLinesAux [] cs

/-- csv field splitting of one line, default dialect: a comma separates
fields; a field starting with a double quote is quoted, with doubled
quotes standing for a literal quote. -/
def csvFieldsAux : Bool → List Char → List Char → List (List Char)
  | _, cur, [] => [cur.reverse]
  | true, cur, '"' :: '"' :: rs => csvFieldsAux true ('"' :: cur) rs
  | true, cur, '"' :: rs => csvFieldsAux false cur rs
  | true, cur, c :: rs => csvFieldsAux true (c :: cur) rs
  | false, cur, c :: rs =>
    if c = ',' then cur.reverse :: csvFieldsAux false [] rs
    else if c = '"' ∧ cur = [] then csvFieldsAux true cur rs
    else csvFieldsAux false (c :: cur) rs

/-- The fields of one csv line; a blank line yields the empty record
that csv.DictReader skips. -/
def csvLineFields (line : List Char) : List String :=
  match line with
  | [] => []
  | _ => (csvFieldsAux false [] line).map (fun l => String.mk l)

/-- Zips header fields with the values of one data row, padding a
short row with Python None and dropping surplus values. -/
def mkRow (fields : List String) (values : List String) : Row :=
  match fields, values with
  | [], _ => []
  | f :: fs, [] => (f, none) :: mkRow fs []
  | f :: fs, v :: vs => (f, some v) :: mkRow fs vs

/-- The header fields of the input text, per csv.DictReader. -/
def headerFields (cs : List Char) : List String :=
  match splitLines cs with
  | [] => []
  | h :: _ => csvLineFields h

/-- The rows csv.DictReader yields for the input text: each non-blank
data line zipped with the header. -/
def dictRows (cs : List Char) : List Row :=
  match splitLines cs with
  | [] => []
  | h :: rest =>
    (rest.map csvLineFields).filterMap
      (fun vs => match vs with
        | [] => none
        | _ => some (mkRow (csvLineFields h) vs))

namespace MainV2

/-- The Category enumeration of main_v2.py. -/
inductive Category where
  | DINING
  | GROCERIES
  | PETS
  | BILLS
  | PURCHASES
  | SUBSCRIPTIONS
  | TRAVEL
deriving DecidableEq, Repr

/-- The display value of each Category member. -/
def Category.value : Category → String
  | .DINING => "Dining & Drinks"
  | .GROCERIES => "Groceries"
  | .PETS => "Pets"
  | .BILLS => "Bills & Utilities"
  | .PURCHASES => "Shared Purchases"
  | .SUBSCRIPTIONS => "Shared Subscriptions"
  | .TRAVEL => "Travel & Vacation"

/-- Category(x): value lookup in the enumeration; none models the
ValueError raised when no member has the given value (including when
the argument is the Python None). -/
def Category.ofValue (v : Option String) : Option Category :=
  match v with
  | none => none
  | some s =>
    if s = "Dining & Drinks" then some .DINING
    else if s = "Groceries" then some .GROCERIES
    else if s = "Pets" then some .PETS
    else if s = "Bills & Utilities" then some .BILLS
    else if s = "Shared Purchases" then some .PURCHASES
    else if s = "Shared Subscriptions" then some .SUBSCRIPTIONS
    else if s = "Travel & Vacation" then some .TRAVEL
    else none

/-- The IgnoredFrom enumeration of main_v2.py; NOTHING carries the
empty string. -/
inductive IgnoredFrom where
  | BUDGET
  | EVERYTHING
  | NOTHING
deriving DecidableEq, Repr

/-- IgnoredFrom(x): value lookup, none models the ValueError. -/
def IgnoredFrom.ofValue (v : Option String) : Option IgnoredFrom :=
  match v with
  | none => none
  | some s =>
    if s = "budget" then some .BUDGET
    else if s = "everything" then some .EVERYTHING
    else if s = "" then some .NOTHING
    else none

/-- The Transaction record of main_v2.py.  The name field is whatever
object the row held, so it can be the Python None for a short row whose
other fields still parse; main_v2 applies no type check to it. -/
structure Transaction where
  date : PyDate
  name : Option String
  account_number : Int
  amount : ℚ
  category : Category
  ignore : IgnoredFrom
deriving DecidableEq, Repr

/-- to_transaction(row) of main_v2.py.  The try block catches ValueError
and KeyError, returning the Python None (modelled ok none); a TypeError
from converting a missing (None) Date, Account Number or Amount is not
caught and escapes (modelled error). -/
def to_transaction (row : Row) : Except Exc (Option Transaction) :=
  match rowGet row "Date" with
  | none => .ok none
  | some none => .error .typeError
  | some (some dateStr) =>
    match parseDate dateStr with
    | none => .ok none
    | some d =>
      match rowGet row "Name" with
      | none => .ok none
      | some nameVal =>
        match rowGet row "Account Number" with
        | none => .ok none
        | some none => .error .typeError
        | some (some acctStr) =>
          match parseInt acctStr with
          | none => .ok none
          | some acct =>
            match rowGet row "Amount" with
            | none => .ok none
            | some none => .error .typeError
            | some (some amtStr) =>
              match parseFloat amtStr with
              | none => .ok none
              | some amt =>
                match rowGet row "Category" with
                | none => .ok none
                | some catVal =>
                  match Category.ofValue catVal with
                  | none => .ok none
                  | some cat =>
                    match rowGet row "Ignored From" with
                    | none => .ok none
                    | some ignVal =>
                      match IgnoredFrom.ofValue ignVal with
                      | none => .ok none
                      | some ign =>
                        .ok (some ⟨d, nameVal, acct, amt, cat, ign⟩)

/-- The loop body of get_transactions: each row is converted, a truthy
result is appended, and an uncaught exception aborts the whole call. -/
def get_transactions_rows : List Row → Except Exc (List Transaction)
  | [] => .ok []
  | row :: rest =>
    match to_transaction row with
    | .error e => .error e
    | .ok none => get_transactions_rows rest
    | .ok (some t) =>
      match get_transactions_rows rest with
      | .error e => .error e
      | .ok ts => .ok (t :: ts)

/-- get_transactions of main_v2.py after the S3 read: the file content
is split into lines, read by csv.DictReader and converted row by row. -/
def get_transactions (content : String) : Except Exc (List Transaction) :=
  get_transactions_rows (dictRows content.data)

/-- The transaction a row contributes to the parsed sequence, if any. -/
def okTransaction (r : Except Exc (Option Transaction)) : Option Transaction :=
  match r with
  | .ok (some t) => some t
  | _ => none

/-- The Person class of main_v2.py. -/
structure Person where
  name : String
  email : String
  account_numbers : List Int
  transactions : List Transaction
deriving DecidableEq, Repr

/-- Person.add_transaction: appends to the ledger. -/
def Person.add_transaction (p : Person) (t : Transaction) : Person :=
  { p with transactions := p.transactions ++ [t] }

/-- Person.get_oldest_transaction: Python min over the transaction
dates; min of an empty iterable raises ValueError. -/
def Person.get_oldest_transaction (p : Person) : Except Exc PyDate :=
  match p.transactions.map Transaction.date with
  | [] => .error .valueError
  | d :: ds => .ok (ds.foldl PyDate.minStep d)

/-- Person.get_newest_transaction: Python max over the transaction
dates; max of an empty iterable raises ValueError. -/
def Person.get_newest_transaction (p : Person) : Except Exc PyDate :=
  match p.transactions.map Transaction.date with
  | [] => .error .valueError
  | d :: ds => .ok (ds.foldl PyDate.maxStep d)

/-- Person.calculate_expenses: zero on an empty ledger, otherwise the
sum of all amounts, restricted to the category when one is given. -/
def Person.calculate_expenses (p : Person) (category : Option Category) : ℚ :=
  if p.transactions = [] then 0
  else
    match category with
    | none => (p.transactions.map Transaction.amount).sum
    | some c =>
      ((p.transactions.filter (fun t => t.category = c)).map Transaction.amount).sum

/-- The People class of main_v2.py. -/
structure People where
  people : List Person
deriving DecidableEq, Repr

/-- The attribution condition of People.add_transactions: the account
number is on the account list of the person and the transaction is not ignored. -/
def transactionMatches (p : Person) (t : Transaction) : Bool :=
  decide (t.account_number ∈ p.account_numbers) && decide (t.ignore = IgnoredFrom.NOTHING)

/-- People.add_transactions: for each transaction in order, every
person whose condition holds appends it to their ledger (the skipped
flag only drives a log line and is not modelled). -/
def People.add_transactions (g : People) (transactions : List Transaction) : People :=
  ⟨transactions.foldl
    (fun ps t => ps.map (fun p => if transactionMatches p t then p.add_transaction t else p))
    g.people⟩

/-- Collects Person.get_oldest_transaction across the roster, stopping
at the first exception, as the generator inside min does. -/
def collectOldest : List Person → Except Exc (List PyDate)
  | [] => .ok []
  | p :: rest =>
    match p.get_oldest_transaction with
    | .error e => .error e
    | .ok d =>
      match collectOldest rest with
      | .error e => .error e
      | .ok ds => .ok (d :: ds)

/-- Collects Person.get_newest_transaction across the roster. -/
def collectNewest : List Person → Except Exc (List PyDate)
  | [] => .ok []
  | p :: rest =>
    match p.get_newest_transaction with
    | .error e => .error e
    | .ok d =>
      match collectNewest rest with
      | .error e => .error e
      | .ok ds => .ok (d :: ds)

/-- People.get_oldest_transaction: min over the oldest dates of the
members; a ValueError from a member propagates, and an empty roster is
itself a min over an empty iterable. -/
def People.get_oldest_transaction (g : People) : Except Exc PyDate :=
  match collectOldest g.people with
  | .error e => .error e
  | .ok [] => .error .valueError
  | .ok (d :: ds) => .ok (ds.foldl PyDate.minStep d)

/-- People.get_newest_transaction: max over the newest dates of the members. -/
def People.get_newest_transaction (g : People) : Except Exc PyDate :=
  match collectNewest g.people with
  | .error e => .error e
  | .ok [] => .error .valueError
  | .ok (d :: ds) => .ok (ds.foldl PyDate.maxStep d)

/-- People.calculate_expenses_difference: a bare raise (RuntimeError)
when the filter keeping the arguments that are roster members is empty,
otherwise the signed difference of their expenses. -/
def People.calculate_expenses_difference
    (g : People) (p1 p2 : Person) (category : Option Category) : Except Exc ℚ :=
  if ([p1, p2].filter (fun p => decide (p ∈ g.people))) = [] then .error .runtimeError
  else .ok (p1.calculate_expenses category - p2.calculate_expenses category)

end MainV2

namespace MainV1

/-- The Category enumeration of main.py. -/
inductive Category where
  | DINING
  | GROCERIES
  | PETS
  | BILLS
  | OTHER
deriving DecidableEq, Repr

/-- The display value of each Category member of main.py. -/
def Category.value : Category → String
  | .DINING => "Dining & Drinks"
  | .GROCERIES => "Groceries"
  | .PETS => "Pets"
  | .BILLS => "Bills & Utilities"
  | .OTHER => "R & T Shared"

/-- Category(x) of main.py: value lookup, none models the ValueError. -/
def Category.ofValue (v : Option String) : Option Category :=
  match v with
  | none => none
  | some s =>
    if s = "Dining & Drinks" then some .DINING
    else if s = "Groceries" then some .GROCERIES
    else if s = "Pets" then some .PETS
    else if s = "Bills & Utilities" then some .BILLS
    else if s = "R & T Shared" then some .OTHER
    else none

/-- The NotIgnoredFrom enumeration of main.py: its only member carries
the empty string. -/
inductive NotIgnoredFrom where
  | NOT_IGNORED
deriving DecidableEq, Repr

/-- NotIgnoredFrom(x) of main.py: only the empty string resolves. -/
def NotIgnoredFrom.ofValue (v : Option String) : Option NotIgnoredFrom :=
  match v with
  | some s => if s = "" then some .NOT_IGNORED else none
  | none => none

/-- The Transaction class of main.py.  Its constructor type-checks every
field, so a constructed record always carries a string name. -/
structure Transaction where
  date : PyDate
  name : String
  account_number : Int
  amount : ℚ
  category : Category
  ignore : NotIgnoredFrom
deriving DecidableEq, Repr

/-- Transaction.from_row of main.py.  ValueError and KeyError from the
field conversions are caught and yield the Python None (modelled ok
none).  A TypeError escapes: converting a missing (None) Date, Account
Number or Amount raises one, and so does the constructor check when the
Name cell is missing (None is not a string). -/
def Transaction.from_row (row : Row) : Except Exc (Option Transaction) :=
  match rowGet row "Date" with
  | none => .ok none
  | some none => .error .typeError
  | some (some dateStr) =>
    match parseDate dateStr with
    | none => .ok none
    | some d =>
      match rowGet row "Name" with
      | none => .ok none
      | some nameVal =>
        match rowGet row "Account Number" with
        | none => .ok none
        | some none => .error .typeError
        | some (some acctStr) =>
          match parseInt acctStr with
          | none => .ok none
          | some acct =>
            match rowGet row "Amount" with
            | none => .ok none
            | some none => .error .typeError
            | some (some amtStr) =>
              match parseFloat amtStr with
              | none => .ok none
              | some amt =>
                match rowGet row "Category" with
                | none => .ok none
                | some catVal =>
                  match Category.ofValue catVal with
                  | none => .ok none
                  | some cat =>
                    match rowGet row "Ignored From" with
                    | none => .ok none
                    | some ignVal =>
                      match NotIgnoredFrom.ofValue ignVal with
                      | none => .ok none
                      | some ign =>
                        match nameVal with
                        | none => .error .typeError
                        | some nm => .ok (some ⟨d, nm, acct, amt, cat, ign⟩)

/-- The loop of SpreadsheetParser.parse over DictReader rows: truthy
conversions are appended, an uncaught exception aborts the call. -/
def parseRows : List Row → Except Exc (List Transaction)
  | [] => .ok []
  | row :: rest =>
    match Transaction.from_row row with
    | .error e => .error e
    | .ok none => parseRows rest
    | .ok (some t) =>
      match parseRows rest with
      | .error e => .error e
      | .ok ts => .ok (t :: ts)

/-- SpreadsheetParser.parse of main.py. -/
def SpreadsheetParser.parse (file_content : String) : Except Exc (List Transaction) :=
  parseRows (dictRows file_content.data)

/-- The Person class of main.py. -/
structure Person where
  name : String
  email : String
  account_numbers : List Int
  transactions : List Transaction
deriving DecidableEq, Repr

/-- Person.add_transaction of main.py. -/
def Person.add_transaction (p : Person) (t : Transaction) : Person :=
  { p with transactions := p.transactions ++ [t] }

/-- Person.calculate_expenses of main.py: the category-restricted sum
when a category is given, the full sum otherwise; the empty sum is 0. -/
def Person.calculate_expenses (p : Person) (category : Option Category) : ℚ :=
  match category with
  | some c =>
    ((p.transactions.filter (fun t => t.category = c)).map Transaction.amount).sum
  | none => (p.transactions.map Transaction.amount).sum

/-- One person entry of the configuration document; none models a
missing key. -/
structure PersonCfg where
  name : Option String
  email : Option String
  accounts : Option (List Int)

/-- The configuration document handed to Summary; none models a missing
key.  The falsy-config path that loads the document from object storage
is external I/O and out of scope. -/
structure Config where
  owner : Option String
  people : Option (List PersonCfg)

/-- Summary.initialize_people: builds a Person with an empty ledger per
entry in array order; a missing Name, Email or Accounts key raises
(KeyError, caught and re-raised by the constructor). -/
def initialize_people : List PersonCfg → Except Exc (List Person)
  | [] => .ok []
  | pc :: rest =>
    match pc.name with
    | none => .error .keyError
    | some n =>
      match pc.email with
      | none => .error .keyError
      | some e =>
        match pc.accounts with
        | none => .error .keyError
        | some accts =>
          match initialize_people rest with
          | .error err => .error err
          | .ok ps => .ok (⟨n, e, accts, []⟩ :: ps)

/-- The Summary class state of main.py after construction. -/
structure Summary where
  date : PyDate
  owner : String
  people : List Person

/-- Summary.__init__ of main.py: the Owner key is read first, then the
People key, then the people are initialized; any missing key raises
before a Summary exists. -/
def Summary.init (d : PyDate) (config : Config) : Except Exc Summary :=
  match config.owner with
  | none => .error .keyError
  | some o =>
    match config.people with
    | none => .error .keyError
    | some pcs =>
      match initialize_people pcs with
      | .error e => .error e
      | .ok ps => .ok ⟨d, o, ps⟩

/-- Summary.add_persons_transactions of main.py: appends every parsed
transaction whose account number is on the account list of the person (the month
filter is commented out in the source and hence absent). -/
def add_persons_transactions (parsed_transactions : List Transaction) (p : Person) : Person :=
  parsed_transactions.foldl
    (fun p t => if t.account_number ∈ p.account_numbers then p.add_transaction t else p)
    p

/-- Summary.add_transactions of main.py: every person receives a pass
over the whole parsed list. -/
def Summary.add_transactions (s : Summary) (parsed_transactions : List Transaction) : Summary :=
  { s with people := s.people.map (add_persons_transactions parsed_transactions) }

/-- Summary.calculate_2_person_difference of main.py. -/
def calculate_2_person_difference (p1 p2 : Person) (category : Option Category) : ℚ :=
  p1.calculate_expenses category - p2.calculate_expenses category

/-- Summary.add_transactions_from_spreadsheet of main.py: parse, then
distribute; a parse exception propagates. -/
def Summary.add_transactions_from_spreadsheet (s : Summary) (content : String) :
    Except Exc Summary :=
  match SpreadsheetParser.parse content with
  | .error e => .error e
  | .ok ts => .ok (s.add_transactions ts)

/-- SpreadsheetSummary.__init__ of main.py: the Summary constructor
runs first, then the spreadsheet population; a configuration error
therefore precedes any transaction processing. -/
def SpreadsheetSummary.init (d : PyDate) (spreadsheet_content : String) (config : Config) :
    Except Exc Summary :=
  match Summary.init d config with
  | .error e => .error e
  | .ok s => s.add_transactions_from_spreadsheet spreadsheet_content

end MainV1

/-- Floor of a rational, computed from its reduced fraction. -/
def ratFloor (q : ℚ) : Int := q.num.fdiv q.den

/-- Rounds a rational to the nearest integer, ties to the even
neighbour, as the fixed-point float formatting does on the value. -/
def roundHalfEven (q : ℚ) : Int :=
  let f := ratFloor q
  let r := q - (f : ℚ)
  if r < 1/2 then f
  else if (1 : ℚ)/2 < r then f + 1
  else if f % 2 = 0 then f else f + 1

/-- Decimal digit characters of a natural number (fuel-structured so
that the kernel can evaluate it). -/
def natToCharsAux : Nat → Nat → List Char
  | 0, _ => []
  | fuel + 1, n =>
    if n < 10 then [Nat.digitChar n]
    else natToCharsAux fuel (n / 10) ++ [Nat.digitChar (n % 10)]

/-- Decimal rendering of a natural number. -/
def natToString (n : Nat) : String := String.mk (natToCharsAux (n + 1) n)

/-- Two-digit zero-padded rendering. -/
def pad2 (n : Nat) : String := if n < 10 then "0" ++ natToString n else natToString n

/-- A nonnegative number of cents rendered as units.hundredths. -/
def centsToString (n : Nat) : String := natToString (n / 100) ++ "." ++ pad2 (n % 100)

namespace MainV1

/-- format_money_helper of main.py: the MONEY_FORMAT pattern renders
the amount with exactly two decimal places, rounding half to even. -/
def format_money_helper (num : ℚ) : String :=
  let c := roundHalfEven (num * 100)
  if c < 0 then "-" ++ centsToString c.natAbs else centsToString c.toNat

/-- date.strftime(DISPLAY_DATE_FORMAT) with the "%m/%y" pattern of
main.py. -/
def strftimeDisplay (d : PyDate) : String := pad2 d.month ++ "/" ++ pad2 (d.year % 100)

/-- Python iterates Category in definition order. -/
def categoryList : List Category :=
  [.DINING, .GROCERIES, .PETS, .BILLS, .OTHER]

/-- The fixed style header of the generated email body, braces written
as character escapes. -/
def htmlHead : String :=
  "<html>\n        <head>\n            <style>\n                table \x7b\n                    border-collapse: collapse;\n                    width: 100%;\n                \x7d\n                \n                th, td \x7b\n                    border: 1px solid black;\n                    padding: 8px 12px;  /* Add padding to table cells */\n                    text-align: left;\n                \x7d\n\n                th \x7b\n                    background-color: #f2f2f2;  /* A light background color for headers */\n                \x7d\n            </style>\n        </head>\n        <body>"

/-- The header cells of the table, one per category in order. -/
def categoryHeaderCells : String :=
  categoryList.foldl (fun acc c => acc ++ "<th>" ++ c.value ++ "</th>\n") ""

/-- The table opening and header row of the email body. -/
def tableHeader : String :=
  "<table border=\x271\x27>\n<thead>\n<tr>\n<th></th>\n" ++ categoryHeaderCells ++
    "<th>Total</th>\n</tr>\n</thead>\n<tbody>\n"

/-- Per-category cells of one person. -/
def personCategoryCells (p : Person) : String :=
  categoryList.foldl
    (fun acc c => acc ++ "<td>" ++ format_money_helper (p.calculate_expenses (some c)) ++ "</td>\n")
    ""

/-- The data row of one person: name, per-category expenses, total. -/
def personRow (p : Person) : String :=
  "<tr>\n" ++ "<td>" ++ p.name ++ "</td>\n" ++ personCategoryCells p ++
    "<td>" ++ format_money_helper (p.calculate_expenses none) ++ "</td>\n" ++ "</tr>\n"

/-- The per-category cells of the difference row. -/
def differenceCategoryCells (p1 p2 : Person) : String :=
  categoryList.foldl
    (fun acc c =>
      acc ++ "<td>" ++ format_money_helper (calculate_2_person_difference p1 p2 (some c)) ++ "</td>\n")
    ""

/-- The trailing difference row emitted when the roster has exactly two
people; on any other roster shape the destructuring never runs. -/
def differenceRow (s : Summary) : String :=
  match s.people with
  | [p1, p2] =>
    "<tr>\n<td>Difference (" ++ p1.name ++ " - " ++ p2.name ++ ")</td>\n" ++
      differenceCategoryCells p1 p2 ++
      "<td>" ++ format_money_helper (calculate_2_person_difference p1 p2 none) ++ "</td>\n" ++
      "</tr>\n"
  | _ => ""

/-- Everything of the email body built before the two-person check:
style header, table header, one row per person in roster order. -/
def summaryTable (s : Summary) : String :=
  htmlHead ++ tableHeader ++ s.people.foldl (fun acc p => acc ++ personRow p) ""

/-- The closing tags appended after the optional difference row. -/
def tableClose : String := "</tbody>\n</table>\n</body>\n</html>"

/-- EmailGenerator.generate_summary_email of main.py: sender, roster
emails, dated subject and the HTML body, whose difference row is added
only when the roster holds exactly two people. -/
def generate_summary_email (summary : Summary) : String × List String × String × String :=
  (summary.owner,
   summary.people.map Person.email,
   "Monthly Summary - " ++ strftimeDisplay summary.date,
   (if summary.people.length = 2 then summaryTable summary ++ differenceRow summary
    else summaryTable summary) ++ tableClose)

end MainV1

/-! Concrete sample data used by witnesses and counterexamples. -/

/-- A spreadsheet whose data row is shorter than the header: the
Account Number cell is the Python None, and int(None) raises an
uncaught TypeError inside main.py Transaction.from_row. -/
def shortRowCsvV1 : String :=
  "Date,Name,Account Number,Amount,Category,Ignored From\n2023-08-31,MADCATS DANCE"

/-- A spreadsheet whose second data row is fully valid but whose first
data row is shorter than the header, so the main_v2.py parse aborts
before reaching it. -/
def shortRowCsvV2 : String :=
  "Date,Name,Account Number,Amount,Category,Ignored From\n2023-09-04,TIKICAT BAR\n2023-09-05,GOOD DINER,1234,17,Groceries,"

/-- A fully well-formed spreadsheet: one valid row and one row whose
Category is outside the enumeration. -/
def goodCsvV2 : String :=
  "Date,Name,Account Number,Amount,Category,Ignored From\n2023-09-04,TIKICAT BAR,1234,17,Dining & Drinks,\n2023-08-31,MADCATS DANCE,1313,21,Internal Transfers,"

/-- The non-tabular garbage string that the tests of the repository
feed to the parser. -/
def garbageCsv : String := "***THIS IS A GARBAGE SPREADSHEET***"

/-- The transaction the valid row of goodCsvV2 denotes. -/
def tikicatV2 : MainV2.Transaction :=
  ⟨⟨2023, 9, 4⟩, some "TIKICAT BAR", 1234, 17, .DINING, .NOTHING⟩

/-- The transaction the trailing valid row of shortRowCsvV2 denotes. -/
def goodDinerV2 : MainV2.Transaction :=
  ⟨⟨2023, 9, 5⟩, some "GOOD DINER", 1234, 17, .GROCERIES, .NOTHING⟩

/-- A person with an empty ledger. -/
def tootieV2 : MainV2.Person := ⟨"Tootie", "tootie@example.com", [1313], []⟩

/-- Two dining transactions of 17.00 and 12.66. -/
def diningSeventeen : MainV2.Transaction :=
  ⟨⟨2023, 9, 4⟩, some "TIKICAT BAR", 1234, 17, .DINING, .NOTHING⟩

/-- The 12.66 dining transaction. -/
def diningTwelveSixtySix : MainV2.Transaction :=
  ⟨⟨2023, 9, 5⟩, some "HULA HUT", 1234, 1266/100, .DINING, .NOTHING⟩

/-- A ledger holding exactly the 17.00 and 12.66 dining transactions. -/
def georgeV2 : MainV2.Person :=
  ⟨"George", "george@example.com", [1234], [diningSeventeen, diningTwelveSixtySix]⟩

/-- A roster containing only georgeV2, for the difference queries. -/
def groupV2 : MainV2.People := ⟨[georgeV2]⟩

/-- A person with one transaction, used beside an empty-ledger member. -/
def rockyV2 : MainV2.Person := ⟨"Rocky", "rocky@example.com", [77], [diningSeventeen]⟩

/-- A roster whose second member holds zero transactions. -/
def mixedGroupV2 : MainV2.People := ⟨[rockyV2, tootieV2]⟩

/-- A configuration document with an Owner key but no People key. -/
def cfgMissingPeople : MainV1.Config := ⟨some "bebas@gmail.com", none⟩

/-- A 12.66 dining transaction of the main.py data model. -/
def tikicatV1 : MainV1.Transaction :=
  ⟨⟨2023, 9, 4⟩, "TIKICAT BAR", 1234, 1266/100, .DINING, .NOT_IGNORED⟩

/-- A 17.00 dining transaction of the main.py data model. -/
def madcatsV1 : MainV1.Transaction :=
  ⟨⟨2023, 8, 31⟩, "MADCATS DANCE", 1313, 17, .DINING, .NOT_IGNORED⟩

/-- Person A with total expenses 12.66. -/
def personA : MainV1.Person := ⟨"George", "george@example.com", [1234], [tikicatV1]⟩

/-- Person B with total expenses 17.00. -/
def personB : MainV1.Person := ⟨"Tootie", "tootie@example.com", [1313], [madcatsV1]⟩

/-- A third person, to build a three-person roster. -/
def personC : MainV1.Person := ⟨"Rocco", "rocco@example.com", [7777], []⟩

/-- A two-person summary. -/
def twoPersonSummary : MainV1.Summary :=
  ⟨⟨2023, 9, 1⟩, "bebas@gmail.com", [personA, personB]⟩

/-- A three-person summary. -/
def threePersonSummary : MainV1.Summary :=
  ⟨⟨2023, 9, 1⟩, "bebas@gmail.com", [personA, personB, personC]⟩

/-! General lemmas about the embedded operations. -/

theorem rowGet_mem (r : Row) (k : String) (v : Option String)
    (h : rowGet r k = some v) : (k, v) ∈ r := by
  induction r with
  | nil => simp [rowGet] at h
  | cons kv rest ih =>
    obtain ⟨k1, w⟩ := kv
    simp only [rowGet] at h
    split at h
    · next heq =>
      injection h with h
      subst heq h
      exact List.mem_cons_self _ _
    · exact List.mem_cons_of_mem _ (ih h)

theorem transactionMatches_add_transaction (p : MainV2.Person) (t u : MainV2.Transaction) :
    MainV2.transactionMatches (p.add_transaction t) u = MainV2.transactionMatches p u := rfl

theorem v2_fold_add_transactions (ts : List MainV2.Transaction) :
    ∀ ps : List MainV2.Person,
      ts.foldl
        (fun ps t =>
          ps.map (fun p => if MainV2.transactionMatches p t then p.add_transaction t else p))
        ps
      = ps.map
          (fun p =>
            { p with transactions := p.transactions ++ ts.filter (MainV2.transactionMatches p) }) := by
  induction ts with
  | nil =>
    intro ps
    simp
  | cons t ts ih =>
    intro ps
    rw [List.foldl_cons, ih, List.map_map]
    apply List.map_congr_left
    intro p _
    simp only [Function.comp]
    cases hm : MainV2.transactionMatches p t
    · simp [hm, List.filter_cons]
    · simp [hm, List.filter_cons, MainV2.Person.add_transaction, List.append_assoc]
      rfl

/-- C1: during population every parsed transaction is appended to the
ledger of exactly those roster members whose account list contains its
account number and whose ignore-reason check passes, independently for
every person, so an account number shared by two people lands the same
transaction in both ledgers. -/
theorem C1_attribution_rule (g : MainV2.People) (ts : List MainV2.Transaction) :
    (g.add_transactions ts).people
      = g.people.map
          (fun p =>
            { p with transactions := p.transactions ++ ts.filter (MainV2.transactionMatches p) }) := by
  simpa [MainV2.People.add_transactions] using v2_fold_add_transactions ts g.people

/-- C7: on an empty ledger the expense query returns exactly zero, both
without a category and for every category. -/
theorem C7_empty_ledger_zero (p : MainV2.Person) (h : p.transactions = []) :
    p.calculate_expenses none = 0 ∧ ∀ c, p.calculate_expenses (some c) = 0 := by
  refine ⟨?_, fun c => ?_⟩ <;> simp [MainV2.Person.calculate_expenses, h]

theorem C7_empty_ledger_zero_witness :
    tootieV2.transactions = [] ∧
    tootieV2.calculate_expenses none = 0 ∧
    ∀ c, tootieV2.calculate_expenses (some c) = 0 :=
  ⟨rfl, C7_empty_ledger_zero tootieV2 rfl⟩

/-- C8: a ledger holding exactly the dining transactions 17.00 and
12.66 reports 29.66 for the dining category and 29.66 overall, with no
rounding in the aggregation. -/
theorem C8_aggregation_exact :
    georgeV2.calculate_expenses (some MainV2.Category.DINING) = 2966/100 ∧
    georgeV2.calculate_expenses none = 2966/100 := by
  constructor <;>
    · norm_num [MainV2.Person.calculate_expenses, georgeV2, diningSeventeen,
        diningTwelveSixtySix]
      exact List.cons_ne_nil _ _

/-- C5: the two-person difference is exactly the expenses of the first
person minus those of the second, sign preserved and unrounded; for
person A totalling 12.66 and person B totalling 17.00 it is -4.34. -/
theorem C5_difference_exact :
    (∀ (p1 p2 : MainV1.Person) (category : Option MainV1.Category),
        MainV1.calculate_2_person_difference p1 p2 category
          = p1.calculate_expenses category - p2.calculate_expenses category)
    ∧ personA.calculate_expenses none = 1266/100
    ∧ personB.calculate_expenses none = 17
    ∧ MainV1.calculate_2_person_difference personA personB none = -(434/100) := by
  refine ⟨fun p1 p2 category => rfl, ?_, ?_, ?_⟩ <;>
    norm_num [MainV1.calculate_2_person_difference, MainV1.Person.calculate_expenses,
      personA, personB, tikicatV1, madcatsV1]

/-- C4: constructing from a configuration without the People key fails
with the configuration error before any spreadsheet content is looked
at, and no Summary value is produced. -/
theorem C4_config_fail_fast (d : PyDate) (content : String) (config : MainV1.Config)
    (h : config.people = none) :
    MainV1.SpreadsheetSummary.init d content config = .error Exc.keyError := by
  unfold MainV1.SpreadsheetSummary.init MainV1.Summary.init
  cases config.owner <;> simp [h]

theorem C4_config_fail_fast_witness :
    cfgMissingPeople.people = none ∧
    MainV1.SpreadsheetSummary.init ⟨2023, 9, 1⟩ garbageCsv cfgMissingPeople
      = .error Exc.keyError :=
  ⟨rfl, C4_config_fail_fast ⟨2023, 9, 1⟩ garbageCsv cfgMissingPeople rfl⟩

/-- C9: the group difference raises only when neither argument is a
roster member; with at least one member among the two it returns the
signed expense subtraction normally. -/
theorem C9_difference_membership (g : MainV2.People) (p1 p2 : MainV2.Person)
    (category : Option MainV2.Category) :
    (p1 ∈ g.people ∨ p2 ∈ g.people →
        g.calculate_expenses_difference p1 p2 category
          = .ok (p1.calculate_expenses category - p2.calculate_expenses category))
    ∧ (p1 ∉ g.people ∧ p2 ∉ g.people →
        g.calculate_expenses_difference p1 p2 category = .error Exc.runtimeError) := by
  unfold MainV2.People.calculate_expenses_difference
  constructor
  · intro h
    have hne : List.filter (fun p => decide (p ∈ g.people)) [p1, p2] ≠ [] := by
      rcases h with h | h
      · have hmem : p1 ∈ List.filter (fun p => decide (p ∈ g.people)) [p1, p2] :=
          List.mem_filter.mpr ⟨by simp, by simpa using h⟩
        exact List.ne_nil_of_mem hmem
      · have hmem : p2 ∈ List.filter (fun p => decide (p ∈ g.people)) [p1, p2] :=
          List.mem_filter.mpr ⟨by simp, by simpa using h⟩
        exact List.ne_nil_of_mem hmem
    simp [hne]
  · rintro ⟨h1, h2⟩
    simp [List.filter_cons, h1, h2]

theorem C9_difference_membership_witness :
    georgeV2 ∈ groupV2.people ∧
    groupV2.calculate_expenses_difference georgeV2 tootieV2 none
      = .ok (georgeV2.calculate_expenses none - tootieV2.calculate_expenses none) :=
  ⟨by simp [groupV2],
   (C9_difference_membership groupV2 georgeV2 tootieV2 none).1 (Or.inl (by simp [groupV2]))⟩

theorem v2_oldest_error_kind (p : MainV2.Person) (e : Exc)
    (h : p.get_oldest_transaction = .error e) : e = Exc.valueError := by
  unfold MainV2.Person.get_oldest_transaction at h
  cases htx : p.transactions <;> rw [htx] at h <;> simp_all

theorem v2_newest_error_kind (p : MainV2.Person) (e : Exc)
    (h : p.get_newest_transaction = .error e) : e = Exc.valueError := by
  unfold MainV2.Person.get_newest_transaction at h
  cases htx : p.transactions <;> rw [htx] at h <;> simp_all

theorem v2_empty_oldest (p : MainV2.Person) (h : p.transactions = []) :
    p.get_oldest_transaction = .error Exc.valueError := by
  unfold MainV2.Person.get_oldest_transaction
  rw [h]
  rfl

theorem v2_empty_newest (p : MainV2.Person) (h : p.transactions = []) :
    p.get_newest_transaction = .error Exc.valueError := by
  unfold MainV2.Person.get_newest_transaction
  rw [h]
  rfl

theorem v2_collectOldest_error (l : List MainV2.Person) (p : MainV2.Person)
    (hm : p ∈ l) (h : p.transactions = []) :
    MainV2.collectOldest l = .error Exc.valueError := by
  induction l with
  | nil => cases hm
  | cons q rest ih =>
    rcases List.mem_cons.mp hm with rfl | hmem
    · simp [MainV2.collectOldest, v2_empty_oldest p h]
    · cases hq : q.get_oldest_transaction with
      | error e =>
        have he := v2_oldest_error_kind q e hq
        subst he
        simp [MainV2.collectOldest, hq]
      | ok d => simp [MainV2.collectOldest, hq, ih hmem]

theorem v2_collectNewest_error (l : List MainV2.Person) (p : MainV2.Person)
    (hm : p ∈ l) (h : p.transactions = []) :
    MainV2.collectNewest l = .error Exc.valueError := by
  induction l with
  | nil => cases hm
  | cons q rest ih =>
    rcases List.mem_cons.mp hm with rfl | hmem
    · simp [MainV2.collectNewest, v2_empty_newest p h]
    · cases hq : q.get_newest_transaction with
      | error e =>
        have he := v2_newest_error_kind q e hq
        subst he
        simp [MainV2.collectNewest, hq]
      | ok d => simp [MainV2.collectNewest, hq, ih hmem]

/-- C10: the observed-date-range queries are partial: a person with an
empty ledger raises on both the oldest and the newest query, and the
group-level queries raise as soon as any roster member holds zero
transactions. -/
theorem C10_date_range_raises :
    (∀ p : MainV2.Person, p.transactions = [] →
        p.get_oldest_transaction = .error Exc.valueError ∧
        p.get_newest_transaction = .error Exc.valueError)
    ∧ (∀ (g : MainV2.People) (p : MainV2.Person), p ∈ g.people → p.transactions = [] →
        g.get_oldest_transaction = .error Exc.valueError ∧
        g.get_newest_transaction = .error Exc.valueError) := by
  constructor
  · intro p h
    exact ⟨v2_empty_oldest p h, v2_empty_newest p h⟩
  · intro g p hm h
    constructor
    · unfold MainV2.People.get_oldest_transaction
      rw [v2_collectOldest_error g.people p hm h]
    · unfold MainV2.People.get_newest_transaction
      rw [v2_collectNewest_error g.people p hm h]

theorem C10_date_range_raises_witness :
    tootieV2.transactions = [] ∧
    tootieV2.get_oldest_transaction = .error Exc.valueError ∧
    tootieV2 ∈ mixedGroupV2.people ∧
    mixedGroupV2.get_oldest_transaction = .error Exc.valueError ∧
    mixedGroupV2.get_newest_transaction = .error Exc.valueError :=
  ⟨rfl,
   (C10_date_range_raises.1 tootieV2 rfl).1,
   by simp [mixedGroupV2],
   (C10_date_range_raises.2 mixedGroupV2 tootieV2 (by simp [mixedGroupV2]) rfl).1,
   (C10_date_range_raises.2 mixedGroupV2 tootieV2 (by simp [mixedGroupV2]) rfl).2⟩

/-- C6: the rendered body carries the trailing difference row exactly
when the roster has two people: with two people the body is the table
followed by the difference row and the closing tags, and the difference
row is a table row labelled Difference; with any other roster size the
body closes immediately after the per-person rows. -/
theorem C6_difference_row_iff (s : MainV1.Summary) :
    (s.people.length = 2 →
        (MainV1.generate_summary_email s).2.2.2
          = MainV1.summaryTable s ++ MainV1.differenceRow s ++ MainV1.tableClose
        ∧ ∃ rest, MainV1.differenceRow s = "<tr>\n<td>Difference (" ++ rest)
    ∧ (s.people.length ≠ 2 →
        (MainV1.generate_summary_email s).2.2.2
          = MainV1.summaryTable s ++ MainV1.tableClose) := by
  constructor
  · intro h2
    constructor
    · simp [MainV1.generate_summary_email, h2]
    · obtain ⟨p1, p2, hp⟩ := List.length_eq_two.mp h2
      unfold MainV1.differenceRow
      rw [hp]
      simp only [String.append_assoc]
      exact ⟨_, rfl⟩
  · intro h2
    simp [MainV1.generate_summary_email, h2]

theorem C6_difference_row_iff_witness :
    twoPersonSummary.people.length = 2 ∧
    (MainV1.generate_summary_email twoPersonSummary).2.2.2
      = MainV1.summaryTable twoPersonSummary ++ MainV1.differenceRow twoPersonSummary ++
          MainV1.tableClose ∧
    threePersonSummary.people.length ≠ 2 ∧
    (MainV1.generate_summary_email threePersonSummary).2.2.2
      = MainV1.summaryTable threePersonSummary ++ MainV1.tableClose :=
  ⟨rfl,
   ((C6_difference_row_iff twoPersonSummary).1 rfl).1,
   by decide,
   (C6_difference_row_iff threePersonSummary).2 (by decide)⟩

theorem v2_to_transaction_total (r : Row) (h : ∀ kv ∈ r, kv.2 ≠ none) :
    ∃ o, MainV2.to_transaction r = .ok o := by
  rcases hD : rowGet r "Date" with _ | (_ | dateStr)
  · exact ⟨none, by simp [MainV2.to_transaction, hD]⟩
  · exact absurd rfl (h _ (rowGet_mem _ _ _ hD))
  · rcases hPD : parseDate dateStr with _ | d
    · exact ⟨none, by simp [MainV2.to_transaction, hD, hPD]⟩
    · rcases hN : rowGet r "Name" with _ | nameVal
      · exact ⟨none, by simp [MainV2.to_transaction, hD, hPD, hN]⟩
      · rcases hA : rowGet r "Account Number" with _ | (_ | acctStr)
        · exact ⟨none, by simp [MainV2.to_transaction, hD, hPD, hN, hA]⟩
        · exact absurd rfl (h _ (rowGet_mem _ _ _ hA))
        · rcases hPI : parseInt acctStr with _ | acct
          · exact ⟨none, by simp [MainV2.to_transaction, hD, hPD, hN, hA, hPI]⟩
          · rcases hM : rowGet r "Amount" with _ | (_ | amtStr)
            · exact ⟨none, by simp [MainV2.to_transaction, hD, hPD, hN, hA, hPI, hM]⟩
            · exact absurd rfl (h _ (rowGet_mem _ _ _ hM))
            · rcases hPF : parseFloat amtStr with _ | amt
              · exact ⟨none, by simp [MainV2.to_transaction, hD, hPD, hN, hA, hPI, hM, hPF]⟩
              · rcases hC : rowGet r "Category" with _ | catVal
                · exact ⟨none, by simp [MainV2.to_transaction, hD, hPD, hN, hA, hPI, hM, hPF, hC]⟩
                · rcases hOC : MainV2.Category.ofValue catVal with _ | cat
                  · exact ⟨none, by
                      simp [MainV2.to_transaction, hD, hPD, hN, hA, hPI, hM, hPF, hC, hOC]⟩
                  · rcases hI : rowGet r "Ignored From" with _ | ignVal
                    · exact ⟨none, by
                        simp [MainV2.to_transaction, hD, hPD, hN, hA, hPI, hM, hPF, hC, hOC, hI]⟩
                    · rcases hOI : MainV2.IgnoredFrom.ofValue ignVal with _ | ign
                      · exact ⟨none, by
                          simp [MainV2.to_transaction, hD, hPD, hN, hA, hPI, hM, hPF, hC, hOC,
                            hI, hOI]⟩
                      · exact ⟨some ⟨d, nameVal, acct, amt, cat, ign⟩, by
                          simp [MainV2.to_transaction, hD, hPD, hN, hA, hPI, hM, hPF, hC, hOC,
                            hI, hOI]⟩

theorem v2_rows_ok (rows : List Row)
    (h : ∀ r ∈ rows, ∃ o, MainV2.to_transaction r = .ok o) :
    MainV2.get_transactions_rows rows
      = .ok (rows.filterMap (fun r => MainV2.okTransaction (MainV2.to_transaction r))) := by
  induction rows with
  | nil => rfl
  | cons r rest ih =>
    obtain ⟨o, ho⟩ := h r (List.mem_cons_self r rest)
    have ih2 := ih (fun q hq => h q (List.mem_cons_of_mem _ hq))
    cases o with
    | none =>
      simp [MainV2.get_transactions_rows, ho, ih2, List.filterMap_cons, MainV2.okTransaction]
    | some t =>
      simp [MainV2.get_transactions_rows, ho, ih2, List.filterMap_cons, MainV2.okTransaction]

/-- C2 (amended): whenever every data row supplies a string value for
every header column, the parse returns exactly the valid
transactions in original row order, skipping each row that fails to
parse without aborting; and a row whose Category cell reads Internal
Transfers never contributes a transaction. -/
theorem C2_parse_skip_and_order :
    (∀ content : String,
        (∀ r ∈ dictRows content.data, ∀ kv ∈ r, kv.2 ≠ none) →
        MainV2.get_transactions content
          = .ok ((dictRows content.data).filterMap
              (fun r => MainV2.okTransaction (MainV2.to_transaction r))))
    ∧ (∀ (r : Row) (t : MainV2.Transaction),
        rowGet r "Category" = some (some "Internal Transfers") →
        MainV2.to_transaction r ≠ .ok (some t)) := by
  constructor
  · intro content h
    exact v2_rows_ok _ (fun r hr => v2_to_transaction_total r (h r hr))
  · intro r t hc contra
    have hnone : MainV2.Category.ofValue (some "Internal Transfers") = none := rfl
    rcases hD : rowGet r "Date" with _ | (_ | dateStr)
    · simp [MainV2.to_transaction, hD] at contra
    · simp [MainV2.to_transaction, hD] at contra
    · rcases hPD : parseDate dateStr with _ | d
      · simp [MainV2.to_transaction, hD, hPD] at contra
      · rcases hN : rowGet r "Name" with _ | nameVal
        · simp [MainV2.to_transaction, hD, hPD, hN] at contra
        · rcases hA : rowGet r "Account Number" with _ | (_ | acctStr)
          · simp [MainV2.to_transaction, hD, hPD, hN, hA] at contra
          · simp [MainV2.to_transaction, hD, hPD, hN, hA] at contra
          · rcases hPI : parseInt acctStr with _ | acct
            · simp [MainV2.to_transaction, hD, hPD, hN, hA, hPI] at contra
            · rcases hM : rowGet r "Amount" with _ | (_ | amtStr)
              · simp [MainV2.to_transaction, hD, hPD, hN, hA, hPI, hM] at contra
              · simp [MainV2.to_transaction, hD, hPD, hN, hA, hPI, hM] at contra
              · rcases hPF : parseFloat amtStr with _ | amt
                · simp [MainV2.to_transaction, hD, hPD, hN, hA, hPI, hM, hPF] at contra
                · simp [MainV2.to_transaction, hD, hPD, hN, hA, hPI, hM, hPF, hc, hnone]
                    at contra

theorem C2_parse_skip_and_order_witness :
    (∀ r ∈ dictRows goodCsvV2.data, ∀ kv ∈ r, kv.2 ≠ none) ∧
    MainV2.get_transactions goodCsvV2 = .ok [tikicatV2] := by
  have h : ∀ r ∈ dictRows goodCsvV2.data, ∀ kv ∈ r, kv.2 ≠ none := by decide
  exact ⟨h, (C2_parse_skip_and_order.1 goodCsvV2 h).trans (by rfl)⟩

/-- C2 as stated is false on the code: a data row shorter than the
header leaves its Account Number cell as the Python None, int(None)
raises an uncaught TypeError and the parse aborts, losing the fully
valid row that follows. -/
theorem C2_short_row_aborts :
    MainV2.get_transactions shortRowCsvV2 = .error Exc.typeError ∧
    MainV2.get_transactions_rows ((dictRows shortRowCsvV2.data).drop 1)
      = .ok [goodDinerV2] := by
  exact ⟨rfl, rfl⟩

theorem rowGet_mkRow_not_mem (fields vs : List String) (k : String)
    (h : k ∉ fields) : rowGet (mkRow fields vs) k = none := by
  induction fields generalizing vs with
  | nil => rfl
  | cons f fs ih =>
    have hf : ¬ f = k := fun e => h (e ▸ List.mem_cons_self f fs)
    have hfs : k ∉ fs := fun hm => h (List.mem_cons_of_mem _ hm)
    cases vs with
    | nil =>
      simp only [mkRow, rowGet, if_neg hf]
      exact ih [] hfs
    | cons v vs2 =>
      simp only [mkRow, rowGet, if_neg hf]
      exact ih vs2 hfs

theorem dictRows_shape (cs : List Char) (r : Row) (hr : r ∈ dictRows cs) :
    ∃ vs, r = mkRow (headerFields cs) vs := by
  unfold dictRows at hr
  cases hsl : splitLines cs with
  | nil => rw [hsl] at hr; simp at hr
  | cons h0 rest =>
    rw [hsl] at hr
    simp only [List.mem_filterMap] at hr
    obtain ⟨vs, hvs, hmk⟩ := hr
    cases vs with
    | nil => simp at hmk
    | cons a b =>
      simp only [Option.some.injEq] at hmk
      refine ⟨a :: b, ?_⟩
      rw [← hmk]
      unfold headerFields
      rw [hsl]

theorem v1_from_row_no_date (r : Row) (h : rowGet r "Date" = none) :
    MainV1.Transaction.from_row r = .ok none := by
  simp [MainV1.Transaction.from_row, h]

theorem v1_parseRows_skip_all (rows : List Row)
    (h : ∀ r ∈ rows, MainV1.Transaction.from_row r = .ok none) :
    MainV1.parseRows rows = .ok [] := by
  induction rows with
  | nil => rfl
  | cons r rest ih =>
    simp [MainV1.parseRows, h r (List.mem_cons_self r rest),
      ih (fun q hq => h q (List.mem_cons_of_mem _ hq))]

theorem v1_from_row_total (r : Row) (h : ∀ kv ∈ r, kv.2 ≠ none) :
    ∃ o, MainV1.Transaction.from_row r = .ok o := by
  rcases hD : rowGet r "Date" with _ | (_ | dateStr)
  · exact ⟨none, by simp [MainV1.Transaction.from_row, hD]⟩
  · exact absurd rfl (h _ (rowGet_mem _ _ _ hD))
  · rcases hPD : parseDate dateStr with _ | d
    · exact ⟨none, by simp [MainV1.Transaction.from_row, hD, hPD]⟩
    · rcases hN : rowGet r "Name" with _ | (_ | nm)
      · exact ⟨none, by simp [MainV1.Transaction.from_row, hD, hPD, hN]⟩
      · exact absurd rfl (h _ (rowGet_mem _ _ _ hN))
      · rcases hA : rowGet r "Account Number" with _ | (_ | acctStr)
        · exact ⟨none, by simp [MainV1.Transaction.from_row, hD, hPD, hN, hA]⟩
        · exact absurd rfl (h _ (rowGet_mem _ _ _ hA))
        · rcases hPI : parseInt acctStr with _ | acct
          · exact ⟨none, by simp [MainV1.Transaction.from_row, hD, hPD, hN, hA, hPI]⟩
          · rcases hM : rowGet r "Amount" with _ | (_ | amtStr)
            · exact ⟨none, by simp [MainV1.Transaction.from_row, hD, hPD, hN, hA, hPI, hM]⟩
            · exact absurd rfl (h _ (rowGet_mem _ _ _ hM))
            · rcases hPF : parseFloat amtStr with _ | amt
              · exact ⟨none, by
                  simp [MainV1.Transaction.from_row, hD, hPD, hN, hA, hPI, hM, hPF]⟩
              · rcases hC : rowGet r "Category" with _ | catVal
                · exact ⟨none, by
                    simp [MainV1.Transaction.from_row, hD, hPD, hN, hA, hPI, hM, hPF, hC]⟩
                · rcases hOC : MainV1.Category.ofValue catVal with _ | cat
                  · exact ⟨none, by
                      simp [MainV1.Transaction.from_row, hD, hPD, hN, hA, hPI, hM, hPF, hC, hOC]⟩
                  · rcases hI : rowGet r "Ignored From" with _ | ignVal
                    · exact ⟨none, by
                        simp [MainV1.Transaction.from_row, hD, hPD, hN, hA, hPI, hM, hPF, hC,
                          hOC, hI]⟩
                    · rcases hOI : MainV1.NotIgnoredFrom.ofValue ignVal with _ | ign
                      · exact ⟨none, by
                          simp [MainV1.Transaction.from_row, hD, hPD, hN, hA, hPI, hM, hPF, hC,
                            hOC, hI, hOI]⟩
                      · exact ⟨some ⟨d, nm, acct, amt, cat, ign⟩, by
                          simp [MainV1.Transaction.from_row, hD, hPD, hN, hA, hPI, hM, hPF, hC,
                            hOC, hI, hOI]⟩

theorem v1_parseRows_total (rows : List Row)
    (h : ∀ r ∈ rows, ∃ o, MainV1.Transaction.from_row r = .ok o) :
    ∃ ts, MainV1.parseRows rows = .ok ts := by
  induction rows with
  | nil => exact ⟨[], rfl⟩
  | cons r rest ih =>
    obtain ⟨o, ho⟩ := h r (List.mem_cons_self r rest)
    obtain ⟨ts, hts⟩ := ih (fun q hq => h q (List.mem_cons_of_mem _ hq))
    cases o with
    | none => exact ⟨ts, by simp [MainV1.parseRows, ho, hts]⟩
    | some t => exact ⟨t :: ts, by simp [MainV1.parseRows, ho, hts]⟩

/-- C3 (amended): when the header carries no Date column, as for
non-tabular garbage, the parse returns the empty sequence without
raising; and on any input whose data rows supply a string value for
every header column the parse never raises. -/
theorem C3_garbage_never_raises :
    (∀ content : String, "Date" ∉ headerFields content.data →
        MainV1.SpreadsheetParser.parse content = .ok [])
    ∧ (∀ content : String,
        (∀ r ∈ dictRows content.data, ∀ kv ∈ r, kv.2 ≠ none) →
        ∃ ts, MainV1.SpreadsheetParser.parse content = .ok ts) := by
  constructor
  · intro content hd
    unfold MainV1.SpreadsheetParser.parse
    apply v1_parseRows_skip_all
    intro r hr
    obtain ⟨vs, rfl⟩ := dictRows_shape content.data r hr
    exact v1_from_row_no_date _ (rowGet_mkRow_not_mem _ _ _ hd)
  · intro content h
    unfold MainV1.SpreadsheetParser.parse
    exact v1_parseRows_total _ (fun r hr => v1_from_row_total r (h r hr))

theorem C3_garbage_never_raises_witness :
    "Date" ∉ headerFields garbageCsv.data ∧
    MainV1.SpreadsheetParser.parse garbageCsv = .ok [] := by
  have h : "Date" ∉ headerFields garbageCsv.data := by decide
  exact ⟨h, C3_garbage_never_raises.1 garbageCsv h⟩

/-- C3 as stated is false on the code: on this input, whose only data
row is shorter than the header, the parser raises an uncaught
TypeError (int of the missing Account Number cell) instead of
returning a sequence. -/
theorem C3_short_row_raises :
    MainV1.SpreadsheetParser.parse shortRowCsvV1 = .error Exc.typeError := by
  rfl
